import Mathlib

/-!
Shallow embedding of the core of the Yad2 monitor (src/app.py):

* `AdaptiveDelayManager` (the adaptive delay controller): outcome events,
  the 24h re-analysis rule `analyze_and_adapt`, risky-hour detection, and
  the constructor's initialization of the multiplier.
* `Yad2Monitor.scrape_all_pages` (the pagination driver).
* `Yad2Monitor.check_for_changes` / `update_price_history` (the diff engine).
* `Yad2Monitor.send_batch_telegram_messages` (the notification dispatcher's
  parallel/sequential mode switching).

Timestamps are modelled as integer seconds; Python floats are modelled as
exact rationals (all constants involved — 1.5, 1.2, 0.9, 0.3, 0.1, 0.05,
0.9, 0.2, 5.0, 3.0, 0.5 — are compared and combined through `min`/`max`
and multiplication, so the bound claims are about the ideal arithmetic).
Python dicts are modelled as insertion-ordered association lists.
-/

namespace Yad2

/-- The five outcome kinds recorded by `AdaptiveDelayManager.log_event`
(src/app.py:76): success, rate_limit, block, timeout, error. -/
inductive EventKind where
  | success
  | rate_limit
  | block
  | timeout
  | error
deriving DecidableEq, Repr

/-- One entry of `history["events"]` (src/app.py:74-80).  The `hour`,
`weekday` and `details` fields are never read by `analyze_and_adapt` or
`find_risky_hours`, so they are omitted from the embedding. -/
structure OutcomeEvent where
  timestamp : Int
  kind : EventKind
deriving DecidableEq, Repr

/-- A per-bucket count record, as stored in `history["hourly_stats"]`
(src/app.py:94-99): one counter per outcome kind. -/
structure KindCounts where
  success : Nat
  rate_limit : Nat
  block : Nat
  timeout : Nat
  error : Nat
deriving DecidableEq, Repr

/-- Models `sum(stats.values())` over one hourly bucket (src/app.py:180). -/
def KindCounts.total (c : KindCounts) : Nat :=
  c.success + c.rate_limit + c.block + c.timeout + c.error

/-- Models `stats.get("block", 0) + stats.get("rate_limit", 0)` (src/app.py:183). -/
def KindCounts.problems (c : KindCounts) : Nat :=
  c.block + c.rate_limit

/-- The persisted `history["current_strategy"]` record (src/app.py:52-57 and
160-168).  `successRate`, `problemRate` are absent (`none`) in the initial
record and filled in by `analyze_and_adapt`.  The code's `reason` strings
interpolate the computed rates; the embedding keeps the fixed template text
only, since no control flow reads `reason` back. -/
structure Strategy where
  pageDelayMultiplier : ℚ
  cycleDelayMultiplier : ℚ
  lastUpdated : Option Int
  reason : String
  successRate : Option ℚ
  problemRate : Option ℚ
  riskyHours : List Nat
deriving DecidableEq, Repr

/-- The default strategy produced by `load_history` when no file exists
(src/app.py:52-57). -/
def Strategy.initial : Strategy :=
  { pageDelayMultiplier := 1
    cycleDelayMultiplier := 1
    lastUpdated := none
    reason := "Initial settings"
    successRate := none
    problemRate := none
    riskyHours := [] }

/-- The `self.history` dict of `AdaptiveDelayManager` (src/app.py:48-58):
events, hourly buckets (keyed by hour-of-day), current strategy.  The
`daily_stats` buckets are never read by the analysis path and are omitted. -/
structure History where
  events : List OutcomeEvent
  hourlyStats : List (Nat × KindCounts)
  currentStrategy : Strategy
deriving DecidableEq, Repr

/-- The mutable state of `AdaptiveDelayManager`: the loaded history plus the
in-memory `self.current_multiplier` attribute (src/app.py:36), which is
stored separately from the persisted strategy record. -/
structure DelayState where
  history : History
  currentMultiplier : ℚ
deriving DecidableEq, Repr

/-- The trailing-24-hours filter of `analyze_and_adapt` (src/app.py:115-119):
`cutoff = now - 24h`, keep events with `timestamp > cutoff`. -/
def recentEvents (events : List OutcomeEvent) (now : Int) : List OutcomeEvent :=
  events.filter (fun e => now - 86400 < e.timestamp)

/-- Models `sum(1 for e in recent_events if e["type"] == k)` (src/app.py:126-128). -/
def countKind (recent : List OutcomeEvent) (k : EventKind) : Nat :=
  (recent.filter (fun e => e.kind = k)).length

/-- Models `success_rate = successes / total if total > 0 else 1.0` (src/app.py:130). -/
def successRateOf (recent : List OutcomeEvent) : ℚ :=
  if 0 < recent.length then
    (countKind recent .success : ℚ) / (recent.length : ℚ)
  else 1

/-- Models `problem_rate = (blocks + rate_limits) / total if total > 0 else 0.0`
(src/app.py:131). -/
def problemRateOf (recent : List OutcomeEvent) : ℚ :=
  if 0 < recent.length then
    ((countKind recent .block + countKind recent .rate_limit : Nat) : ℚ) / (recent.length : ℚ)
  else 0

/-- The multiplier update rule of `analyze_and_adapt` (src/app.py:139-152),
returning the new multiplier and the reason template.  Branches are taken in
source order: first match wins. -/
def nextMultiplier (m pr sr : ℚ) : ℚ × String :=
  if pr > 3/10 then
    (min 5 (m * (3/2)), "High problem rate - increasing delays")
  else if pr > 1/10 then
    (min 3 (m * (6/5)), "Moderate problem rate - slightly increasing delays")
  else if pr < 1/20 ∧ sr > 9/10 then
    (max (1/2) (m * (9/10)), "Good performance - optimizing delays")
  else
    (m, "Maintaining current strategy")

/-- Ascending insertion into a sorted list (models Python `sorted`). -/
def insertAsc (n : Nat) : List Nat → List Nat
  | [] => [n]
  | m :: ms => if n ≤ m then n :: m :: ms else m :: insertAsc n ms

/-- Ascending sort (models Python `sorted` at src/app.py:186). -/
def sortAsc : List Nat → List Nat
  | [] => []
  | n :: ns => insertAsc n (sortAsc ns)

/-- Models `find_risky_hours` (src/app.py:176-186): keep hour buckets with at least
3 observations and problem share above 0.2, return the hours sorted. -/
def findRiskyHours (hs : List (Nat × KindCounts)) : List Nat :=
  sortAsc ((hs.filter (fun p =>
    ¬ p.2.total < 3 ∧ (p.2.problems : ℚ) / (p.2.total : ℚ) > 1/5)).map Prod.fst)

/-- Models `analyze_and_adapt` (src/app.py:107-174).  Early return when the whole
event list has fewer than 5 entries (src/app.py:110) or when no event falls
in the trailing 24 hours (src/app.py:121); otherwise the multiplier is
updated by `nextMultiplier` and the strategy record is replaced wholesale
(src/app.py:160-168). -/
def analyzeAndAdapt (now : Int) (s : DelayState) : DelayState :=
  if s.history.events.length < 5 then s
  else
    let recent := recentEvents s.history.events now
    if recent.isEmpty then s
    else
      let sr := successRateOf recent
      let pr := problemRateOf recent
      let next := nextMultiplier s.currentMultiplier pr sr
      let risky := findRiskyHours s.history.hourlyStats
      { history :=
          { s.history with currentStrategy :=
              { pageDelayMultiplier := next.1
                cycleDelayMultiplier := next.1
                lastUpdated := some now
                reason := next.2
                successRate := some sr
                problemRate := some pr
                riskyHours := risky } }
        currentMultiplier := next.1 }

/-- A sequence of `reanalyze()` calls.  Between calls the event log and the
hourly buckets may have been extended by `log_event`, so each call supplies
the history contents it observes; the multiplier is threaded through. -/
def runCalls (s : DelayState) : List (Int × List OutcomeEvent) → DelayState
  | [] => s
  | (now, es) :: rest =>
      runCalls (analyzeAndAdapt now { s with history := { s.history with events := es } }) rest

/-- Models `AdaptiveDelayManager.__init__` (src/app.py:29-39): load the history,
set `self.current_multiplier = 1.0`, then run `analyze_and_adapt()` once.
The persisted `current_strategy` multiplier fields are loaded but never
read back into `current_multiplier`. -/
def initDelayManager (loaded : History) (now : Int) : DelayState :=
  analyzeAndAdapt now { history := loaded, currentMultiplier := 1 }

/-! ### Python dict model

`self.apartments` and `self.price_history` are Python dicts; the embedding
uses insertion-ordered association lists: assignment replaces the pair in
place when the key exists and appends otherwise, lookup takes the first
match, and keys are unique in every state reachable from a dict. -/

/-- Dict lookup: `d[k]` / `d.get(k)`. -/
def dictGet? {α : Type} : List (String × α) → String → Option α
  | [], _ => none
  | (k', v) :: rest, k => if k' = k then some v else dictGet? rest k

/-- Dict assignment `d[k] = v`: replace in place when present, else append. -/
def dictSet {α : Type} (m : List (String × α)) (k : String) (v : α) :
    List (String × α) :=
  if m.any (fun p => p.1 = k) then
    m.map (fun p => if p.1 = k then (k, v) else p)
  else m ++ [(k, v)]

/-- Dict key listing `d.keys()`. -/
def dictKeys {α : Type} (m : List (String × α)) : List String :=
  m.map Prod.fst

/-- Python `l[-n:]`: the last `n` elements (all of `l` when it is shorter). -/
def lastN {α : Type} (n : Nat) (l : List α) : List α :=
  l.drop (l.length - n)

/-! ### Entities and the diff engine -/

/-- Python truthiness of an optional integer price: `None` and `0` are falsy.
The code gates price comparison and validity checks on bare truthiness
(`if apt['price']`, `if old_price and current_price`). -/
def pyTruthy : Option Int → Bool
  | none => false
  | some n => n ≠ 0

/-- A parsed listing as produced by `parse_apartment` (src/app.py:503-513),
restricted to the fields the scheduler/diff core reads: identity, price,
link (gating validity by truthiness), and the `last_seen` timestamp.
`sourceTs` carries a source-side modification timestamp for the item; the
parser in src/app.py produces no such field and `scrape_all_pages` never
reads it, so it is inert data used only to state watermark properties. -/
structure Apt where
  id : String
  price : Option Int
  link : String
  lastSeen : Int
  sourceTs : Option Int
deriving DecidableEq, Repr

/-- One entry of `self.price_history[apt_id]` (src/app.py:703-706). -/
structure PHEntry where
  price : Option Int
  timestamp : Int
deriving DecidableEq, Repr

/-- Models `update_price_history` (src/app.py:699-708): get-or-init the entity's
list, append one entry, truncate to the last 50. -/
def updatePriceHistory (ph : List (String × List PHEntry)) (aptId : String)
    (price : Option Int) (now : Int) : List (String × List PHEntry) :=
  let cur := (dictGet? ph aptId).getD []
  dictSet ph aptId (lastN 50 (cur ++ [{ price := price, timestamp := now }]))

/-- Models `get_last_price_change_date` (src/app.py:710-713): `None` unless the
entity has at least two history entries, else the second-to-last timestamp. -/
def getLastPriceChangeDate (ph : List (String × List PHEntry))
    (aptId : String) : Option Int :=
  match dictGet? ph aptId with
  | none => none
  | some l => if l.length < 2 then none else (l.drop (l.length - 2)).head?.map (·.timestamp)

/-- One element of `price_changes_list` (src/app.py:740-748). -/
structure PriceChange where
  apartment : Apt
  oldPrice : Int
  newPrice : Int
  change : Int
  changePct : ℚ
  oldPriceDate : Int
  newPriceDate : Int
deriving DecidableEq, Repr

/-- The mutable state read and written by `check_for_changes`:
`self.apartments` and `self.price_history`. -/
structure MonState where
  apartments : List (String × Apt)
  priceHistory : List (String × List PHEntry)
deriving DecidableEq, Repr

/-- Accumulator of the per-apartment loop of `check_for_changes`
(src/app.py:722-756): the evolving dicts plus `new_apartments_list` and
`price_changes_list`. -/
structure RunAcc where
  apartments : List (String × Apt)
  priceHistory : List (String × List PHEntry)
  newList : List Apt
  changes : List PriceChange
deriving DecidableEq, Repr

/-- The loop body of `check_for_changes` for one fresh apartment
(src/app.py:722-756).  Tracked id with both prices truthy and different:
record a price change and append history.  Untracked id: record as new and
seed history.  In every case the stored record is overwritten with the
fresh one (src/app.py:756). -/
def processApt (now : Int) (acc : RunAcc) (apt : Apt) : RunAcc :=
  match dictGet? acc.apartments apt.id with
  | some old =>
      if pyTruthy old.price ∧ pyTruthy apt.price ∧ old.price ≠ apt.price then
        let op := old.price.getD 0
        let np := apt.price.getD 0
        let change := np - op
        let changePct := (change : ℚ) / (op : ℚ) * 100
        let oldDate := (getLastPriceChangeDate acc.priceHistory apt.id).getD old.lastSeen
        { apartments := dictSet acc.apartments apt.id apt
          priceHistory := updatePriceHistory acc.priceHistory apt.id apt.price now
          newList := acc.newList
          changes := acc.changes ++
            [{ apartment := apt, oldPrice := op, newPrice := np, change := change
               changePct := changePct, oldPriceDate := oldDate
               newPriceDate := apt.lastSeen }] }
      else
        { acc with apartments := dictSet acc.apartments apt.id apt }
  | none =>
      { apartments := dictSet acc.apartments apt.id apt
        priceHistory := updatePriceHistory acc.priceHistory apt.id apt.price now
        newList := acc.newList ++ [apt]
        changes := acc.changes }

/-- The classification outcome of one run (src/app.py:719-764). -/
structure DiffResult where
  newApts : List Apt
  changes : List PriceChange
  removedIds : List String
deriving DecidableEq, Repr

/-- Models `check_for_changes` (src/app.py:715-764): process every fresh apartment
through `processApt`, then delete every tracked id absent from
`current_check_apartments` (the set of ids seen this run). -/
def checkForChanges (now : Int) (fresh : List Apt) (s : MonState) :
    MonState × DiffResult :=
  let currentIds := fresh.map (fun a => a.id)
  let acc := fresh.foldl (processApt now)
    { apartments := s.apartments, priceHistory := s.priceHistory
      newList := [], changes := [] }
  let removed := (dictKeys acc.apartments).filter (fun k => ¬ k ∈ currentIds)
  let kept := acc.apartments.filter (fun p => p.1 ∈ currentIds)
  ({ apartments := kept, priceHistory := acc.priceHistory },
   { newApts := acc.newList, changes := acc.changes, removedIds := removed })

/-! ### Pagination driver -/

/-- The observable outcome of `fetch_page` plus element extraction for one
page: either no HTML after retries (`failed`), or a parsed page whose items
are the `parse_apartment` results for each candidate element (`none` when
parsing returned `None`). -/
inductive PageFetch where
  | failed : PageFetch
  | parsed : List (Option Apt) → PageFetch
deriving DecidableEq, Repr

/-- The validity gate of the scrape loop (src/app.py:631):
`if apt and apt['price'] and apt['link']`. -/
def validOf (o : Option Apt) : Option Apt :=
  match o with
  | none => none
  | some a => if pyTruthy a.price ∧ a.link ≠ "" then some a else none

/-- The page loop of `scrape_all_pages` (src/app.py:599-647) from page
`page` with `fuel` pages remaining before `max_pages` is exceeded.  Returns
the accumulated valid apartments and the number of pages processed.  Stops
on: fetch failure, a page with no candidate elements, a page with no valid
apartments (processed but terminal), or page budget exhaustion.  No
timestamp and no watermark is consulted anywhere. -/
def scrapeFrom (pages : Nat → PageFetch) (page : Nat) : Nat → List Apt × Nat
  | 0 => ([], 0)
  | fuel + 1 =>
      match pages page with
      | .failed => ([], 0)
      | .parsed items =>
          if items.isEmpty then ([], 0)
          else
            let valid := items.filterMap validOf
            if valid.isEmpty then (valid, 1)
            else
              let rest := scrapeFrom pages (page + 1) fuel
              (valid ++ rest.1, rest.2 + 1)

/-- Models `scrape_all_pages(base_url, max_pages=50)`: run the loop from page 1. -/
def scrapeAllPages (pages : Nat → PageFetch) (maxPages : Nat) : List Apt × Nat :=
  scrapeFrom pages 1 maxPages

/-- Maximum source-side timestamp present among a page's items (spec-side
vocabulary for the watermark claims; the code computes no such value). -/
def maxTs (items : List (Option Apt)) : Option Int :=
  (items.filterMap (fun o => o.bind (fun a => a.sourceTs))).foldl
    (fun acc x => match acc with | none => some x | some m => some (max m x)) none

/-- One iteration of the monitor loop's scrape-then-diff phase
(src/app.py:899-909): scrape all pages; only when the resulting list is
non-empty (`if apartments:`) run `check_for_changes`. -/
def monitorIteration (pages : Nat → PageFetch) (maxPages : Nat) (now : Int)
    (s : MonState) : MonState × Option DiffResult :=
  let apts := (scrapeAllPages pages maxPages).1
  if apts.isEmpty then (s, none)
  else
    let r := checkForChanges now apts s
    (r.1, some r.2)

/-! ### Notification dispatcher mode switching -/

/-- How the `ThreadPoolExecutor` block of `send_batch_telegram_messages`
(src/app.py:844-865) terminates: normally, with a `RuntimeError` whose text
contains "can't start new thread", with any other `RuntimeError`, or with
any other exception.  (Exceptions raised inside an individual send are
caught around `f.result()` and do not escape the block.) -/
inductive PoolOutcome where
  | ok
  | runtimeNoThread
  | runtimeOther
  | otherExc
deriving DecidableEq, Repr

/-- The delivery mode actually used for a batch. -/
inductive SendMode where
  | parallel
  | sequential
deriving DecidableEq, Repr

/-- Models `send_batch_telegram_messages`, reduced to its mode-switching skeleton
(src/app.py:840-870): empty batch returns early; in parallel mode a clean
pool run returns, while every exception escaping the pool block — the
recognized "can't start new thread" `RuntimeError`, any other
`RuntimeError`, and any other exception alike — sets
`self.use_parallel_messages = False` and falls through to sequential
delivery; in sequential mode messages are sent one by one. -/
def sendBatchStep (useParallel : Bool) (numMessages : Nat)
    (outcome : PoolOutcome) : Bool × Option SendMode :=
  if numMessages = 0 then (useParallel, none)
  else if useParallel then
    match outcome with
    | .ok => (true, some .parallel)
    | .runtimeNoThread => (false, some .sequential)
    | .runtimeOther => (false, some .sequential)
    | .otherExc => (false, some .sequential)
  else (useParallel, some .sequential)

/-- The `use_parallel_messages` flag threaded through a sequence of batches
within one process lifetime. -/
def runBatches (flag : Bool) : List (Nat × PoolOutcome) → Bool
  | [] => flag
  | (n, o) :: rest => runBatches (sendBatchStep flag n o).1 rest

/-- Concrete event history for the spec's scenario: 10 events in the
trailing 24h window, 4 of them blocks, 6 successes. -/
def scenarioEvents : List OutcomeEvent :=
  List.replicate 4 { timestamp := 172000, kind := .block } ++
    List.replicate 6 { timestamp := 172000, kind := .success }

/-- The reference time for `scenarioEvents`: all 10 events fall inside the
trailing 24 hours (cutoff 86400 < 172000). -/
def scenarioNow : Int := 172800

/-- Concrete event history refuting C4's trailing-24h threshold reading:
five events in total (so the `len(events) < 5` guard passes), but only one
— a block — inside the trailing 24 hours. -/
def c4Events : List OutcomeEvent :=
  [{ timestamp := 0, kind := .success }, { timestamp := 0, kind := .success },
   { timestamp := 0, kind := .success }, { timestamp := 0, kind := .success },
   { timestamp := 172000, kind := .block }]

/-- Left-biased choice on options (used to state the last-write-wins lookup
characterization of the diff fold). -/
def optOr {α : Type} : Option α → Option α → Option α
  | some x, _ => some x
  | none, b => b

/-- The last apartment of a fresh list carrying a given id, if any; the
value a Python dict holds for that key after the diff loop wrote every
fresh apartment. -/
def lastWins (fresh : List Apt) (k : String) : Option Apt :=
  (fresh.filter (fun a => a.id = k)).getLast?

/-- Well-formedness of the association-list model of a Python dict: keys
are pairwise distinct (as they are in every real dict). -/
def wfDict {α : Type} (m : List (String × α)) : Prop :=
  (m.map Prod.fst).Nodup

/-- Iterated `update_price_history` calls for one entity: each element
supplies the appended price and timestamp. -/
def applyPHUpdates (ph : List (String × List PHEntry)) (aptId : String) :
    List (Option Int × Int) → List (String × List PHEntry)
  | [] => ph
  | u :: rest => applyPHUpdates (updatePriceHistory ph aptId u.1 u.2) aptId rest

/-- The valid apartments extracted from one fetched page (empty for a
failed fetch). -/
def pageValidItems : PageFetch → List Apt
  | .failed => []
  | .parsed items => items.filterMap validOf

/-- Rewrite an apartment's source-side timestamp (id-directed); all fields
the scraper actually reads are untouched. -/
def setTs (f : String → Option Int) (a : Apt) : Apt :=
  { a with sourceTs := f a.id }

/-- Rewrite every item timestamp on one page. -/
def retimePage (f : String → Option Int) : PageFetch → PageFetch
  | .failed => .failed
  | .parsed items => .parsed (items.map (Option.map (setTs f)))

/-- Rewrite every item timestamp of every page. -/
def retimePages (f : String → Option Int) (pages : Nat → PageFetch) :
    Nat → PageFetch :=
  fun n => retimePage f (pages n)

/-- C5 counterexample data: a tracked record whose stored price is the
non-null integer 0. -/
def c5Stored : Apt :=
  { id := "a", price := some 0, link := "L", lastSeen := 0, sourceTs := none }

/-- C5 counterexample data: the fresh observation of the same listing with
a non-null price of 100. -/
def c5Fresh : Apt :=
  { id := "a", price := some 100, link := "L", lastSeen := 1, sourceTs := none }

/-- C5 counterexample data: loop state tracking `c5Stored` with an empty
price history. -/
def c5Acc : RunAcc :=
  { apartments := [("a", c5Stored)], priceHistory := [], newList := [], changes := [] }

/-- C6 counterexample data: two fresh observations of the same id with
different prices inside one snapshot. -/
def c6AptLow : Apt :=
  { id := "x", price := some 100, link := "L", lastSeen := 0, sourceTs := none }

/-- C6 counterexample data: the duplicate observation at a higher price. -/
def c6AptHigh : Apt :=
  { id := "x", price := some 200, link := "L", lastSeen := 0, sourceTs := none }

/-- C6 counterexample data: a snapshot listing the same id twice with
different prices. -/
def c6Fresh : List Apt := [c6AptLow, c6AptHigh]

/-- C6 witness data: a single well-behaved fresh apartment. -/
def c6WitApt : Apt :=
  { id := "w", price := some 4200, link := "L", lastSeen := 0, sourceTs := none }

/-- C8 counterexample data: the page-1 listing (price unchanged between
runs). -/
def c8AptA : Apt :=
  { id := "A", price := some 500, link := "L", lastSeen := 0, sourceTs := none }

/-- C8 counterexample data: the listing living on page 2, tracked from a
previous run. -/
def c8AptB : Apt :=
  { id := "B", price := some 700, link := "L", lastSeen := 0, sourceTs := none }

/-- C8 counterexample data: page 1 fetches fine, the fetch of page 2 (and
beyond) fails after retries. -/
def c8Pages : Nat → PageFetch :=
  fun n => if n = 1 then .parsed [some c8AptA] else .failed

/-- C8 counterexample data: state tracking both listings before the run. -/
def c8State : MonState :=
  { apartments := [("A", c8AptA), ("B", c8AptB)], priceHistory := [] }

/-- A page environment where every fetch fails. -/
def emptyPages : Nat → PageFetch := fun _ => .failed

/-- C2 counterexample data: the page-1 item, with a source timestamp (50)
older than the watermark 100. -/
def c2OldApt : Apt :=
  { id := "old1", price := some 1000, link := "L", lastSeen := 0, sourceTs := some 50 }

/-- C2 counterexample data: the page-2 item (also old). -/
def c2NextApt : Apt :=
  { id := "new2", price := some 900, link := "L", lastSeen := 0, sourceTs := some 10 }

/-- The concatenation of the valid items of `n` consecutive pages starting
at `page` (the no-omission yardstick for the pagination driver). -/
def joinPages (pages : Nat → PageFetch) (page : Nat) : Nat → List Apt
  | 0 => []
  | n + 1 => pageValidItems (pages page) ++ joinPages pages (page + 1) n

/-- C2 counterexample data: two pages of valid items, everything older than
the watermark, third fetch failing. -/
def c2Pages : Nat → PageFetch :=
  fun n => if n = 1 then .parsed [some c2OldApt]
    else if n = 2 then .parsed [some c2NextApt]
    else .failed

end Yad2

namespace Yad2

/-! ### Helper lemmas: delay controller -/

/-- The multiplier update rule keeps the multiplier inside `[1/2, 5]`. -/
theorem nextMultiplier_bounds (m pr sr : ℚ) (h1 : 1/2 ≤ m) (h2 : m ≤ 5) :
    1/2 ≤ (nextMultiplier m pr sr).1 ∧ (nextMultiplier m pr sr).1 ≤ 5 := by
  unfold nextMultiplier
  split_ifs with hA hB hC
  · exact ⟨le_min (by norm_num) (by linarith), min_le_left _ _⟩
  · exact ⟨le_min (by norm_num) (by linarith),
      le_trans (min_le_left _ _) (by norm_num)⟩
  · exact ⟨le_max_left _ _, max_le (by norm_num) (by linarith)⟩
  · exact ⟨h1, h2⟩

/-- One `analyze_and_adapt` call keeps the multiplier inside `[1/2, 5]`. -/
theorem analyzeAndAdapt_mult_mem (now : Int) (s : DelayState)
    (h1 : 1/2 ≤ s.currentMultiplier) (h2 : s.currentMultiplier ≤ 5) :
    1/2 ≤ (analyzeAndAdapt now s).currentMultiplier ∧
      (analyzeAndAdapt now s).currentMultiplier ≤ 5 := by
  unfold analyzeAndAdapt
  split
  · exact ⟨h1, h2⟩
  · dsimp only
    split
    · exact ⟨h1, h2⟩
    · exact nextMultiplier_bounds _ _ _ h1 h2

/-- Any sequence of re-analysis calls keeps the multiplier inside `[1/2, 5]`. -/
theorem runCalls_mult_mem (calls : List (Int × List OutcomeEvent))
    (s : DelayState) (h1 : 1/2 ≤ s.currentMultiplier)
    (h2 : s.currentMultiplier ≤ 5) :
    1/2 ≤ (runCalls s calls).currentMultiplier ∧
      (runCalls s calls).currentMultiplier ≤ 5 := by
  induction calls generalizing s with
  | nil => exact ⟨h1, h2⟩
  | cons c rest ih =>
      obtain ⟨now, es⟩ := c
      have h := analyzeAndAdapt_mult_mem now
        { s with history := { s.history with events := es } } h1 h2
      exact ih _ h.1 h.2

/-- The multiplier computed by `analyze_and_adapt` depends on the event list
only through its total length (the `< 5` guard) and its trailing-24h
restriction, and on the state only through the current multiplier. -/
theorem analyze_mult_congr (now : Int) (s t : DelayState)
    (hlen : s.history.events.length = t.history.events.length)
    (hrec : recentEvents s.history.events now = recentEvents t.history.events now)
    (hm : s.currentMultiplier = t.currentMultiplier) :
    (analyzeAndAdapt now s).currentMultiplier =
      (analyzeAndAdapt now t).currentMultiplier := by
  unfold analyzeAndAdapt
  rw [hlen, hrec, hm]
  by_cases hc : t.history.events.length < 5
  · simp [hc, hm]
  · simp only [if_neg hc]
    by_cases he : (recentEvents t.history.events now).isEmpty
    · simp [he, hm]
    · simp [he]

/-! ### Claim theorems: delay controller -/

/-- C1: starting from multiplier 1.0, for every loaded history and any
number of `reanalyze()` calls over arbitrary (growing or replaced) event
histories, the delay multiplier lies within `[0.5, 5.0]` after each call
(every prefix of a call sequence is itself a call sequence). -/
theorem C1_multiplier_always_bounded (loaded : History)
    (calls : List (Int × List OutcomeEvent)) :
    1/2 ≤ (runCalls { history := loaded, currentMultiplier := 1 } calls).currentMultiplier ∧
      (runCalls { history := loaded, currentMultiplier := 1 } calls).currentMultiplier ≤ 5 :=
  runCalls_mult_mem calls _ (by norm_num) (by norm_num)

/-- With enough signal, the multiplier after `analyze_and_adapt` is given
by the first-match-wins rule over the trailing-24h rates. -/
theorem analyze_rule (now : Int) (s : DelayState)
    (h5 : 5 ≤ s.history.events.length)
    (hne : recentEvents s.history.events now ≠ []) :
    (analyzeAndAdapt now s).currentMultiplier =
      (if problemRateOf (recentEvents s.history.events now) > 3/10 then
        min 5 (s.currentMultiplier * (3/2))
      else if problemRateOf (recentEvents s.history.events now) > 1/10 then
        min 3 (s.currentMultiplier * (6/5))
      else if problemRateOf (recentEvents s.history.events now) < 1/20 ∧
          successRateOf (recentEvents s.history.events now) > 9/10 then
        max (1/2) (s.currentMultiplier * (9/10))
      else s.currentMultiplier) := by
  unfold analyzeAndAdapt
  rw [if_neg (by omega : ¬ s.history.events.length < 5)]
  dsimp only
  rw [if_neg (by simpa using hne)]
  unfold nextMultiplier
  split_ifs <;> rfl

/-- All ten scenario events lie inside the trailing 24 hours. -/
theorem scenario_recent_eq :
    recentEvents scenarioEvents scenarioNow = scenarioEvents := by decide

/-- The scenario window is non-empty. -/
theorem scenario_recent_ne : recentEvents scenarioEvents scenarioNow ≠ [] := by
  decide

/-- 4 blocks among 10 trailing events: problem rate 0.4. -/
theorem scenario_pr :
    problemRateOf (recentEvents scenarioEvents scenarioNow) = 2/5 := by
  rw [scenario_recent_eq]
  have hb : countKind scenarioEvents .block = 4 := by decide
  have hr : countKind scenarioEvents .rate_limit = 0 := by decide
  have hl : scenarioEvents.length = 10 := by decide
  simp [problemRateOf, hb, hr, hl]
  norm_num

/-- The scenario problem rate exceeds the 0.30 threshold. -/
theorem scenario_pr_gt :
    problemRateOf (recentEvents scenarioEvents scenarioNow) > 3/10 := by
  rw [scenario_pr]; norm_num

/-- C3: with enough signal (at least 5 events overall and a non-empty
trailing-24h window), `analyze_and_adapt` updates the multiplier by the
deterministic first-match-wins rule over the trailing-24h problem and
success rates: problemRate > 0.30 gives min(5, m·1.5); else
problemRate > 0.10 gives min(3, m·1.2); else problemRate < 0.05 and
successRate > 0.90 gives max(0.5, m·0.9); otherwise m is unchanged.  In
particular, 10 recent events of which 4 are blocks yield problemRate 0.4
and a new multiplier of min(5, previous·1.5). -/
theorem C3_first_match_update_rule :
    (∀ (now : Int) (s : DelayState),
        5 ≤ s.history.events.length →
        recentEvents s.history.events now ≠ [] →
        (analyzeAndAdapt now s).currentMultiplier =
          (if problemRateOf (recentEvents s.history.events now) > 3/10 then
            min 5 (s.currentMultiplier * (3/2))
          else if problemRateOf (recentEvents s.history.events now) > 1/10 then
            min 3 (s.currentMultiplier * (6/5))
          else if problemRateOf (recentEvents s.history.events now) < 1/20 ∧
              successRateOf (recentEvents s.history.events now) > 9/10 then
            max (1/2) (s.currentMultiplier * (9/10))
          else s.currentMultiplier)) ∧
    problemRateOf (recentEvents scenarioEvents scenarioNow) = 2/5 ∧
    (∀ m : ℚ,
      (analyzeAndAdapt scenarioNow
        { history := { events := scenarioEvents, hourlyStats := [],
                       currentStrategy := Strategy.initial },
          currentMultiplier := m }).currentMultiplier = min 5 (m * (3/2))) := by
  refine ⟨analyze_rule, scenario_pr, ?_⟩
  intro m
  have h := analyze_rule scenarioNow
    { history := { events := scenarioEvents, hourlyStats := [],
                   currentStrategy := Strategy.initial },
      currentMultiplier := m }
    (show (5 : Nat) ≤ scenarioEvents.length by decide) scenario_recent_ne
  rw [h]
  dsimp only
  rw [if_pos scenario_pr_gt]

/-- Witness for C3: at the scenario history with previous multiplier 1.0,
the rule fires its first branch and yields 1.5. -/
theorem C3_first_match_update_rule_witness :
    (analyzeAndAdapt scenarioNow
      { history := { events := scenarioEvents, hourlyStats := [],
                     currentStrategy := Strategy.initial },
        currentMultiplier := 1 }).currentMultiplier = 3/2 := by
  have h := C3_first_match_update_rule.1 scenarioNow
    { history := { events := scenarioEvents, hourlyStats := [],
                   currentStrategy := Strategy.initial },
      currentMultiplier := 1 } (by decide) scenario_recent_ne
  rw [h]
  dsimp only
  rw [if_pos scenario_pr_gt]
  norm_num [min_def]

/-- Only the single block event of `c4Events` is inside the window. -/
theorem c4_recent_eq :
    recentEvents c4Events scenarioNow = [{ timestamp := 172000, kind := .block }] := by
  decide

/-- The one-event window has problem rate 1. -/
theorem c4_pr : problemRateOf (recentEvents c4Events scenarioNow) = 1 := by
  rw [c4_recent_eq]
  simp [problemRateOf, countKind]

/-- Counterexample to C4 as stated: a history of 5 events of which only one
— a block — lies in the trailing 24 hours.  The claim says fewer than 5
trailing-24h events leave the multiplier unchanged; the code's `< 5` guard
counts the whole event list, so the single trailing block drives the
multiplier from 1.0 to 1.5. -/
theorem C4_trailing_threshold_counterexample :
    (recentEvents c4Events scenarioNow).length < 5 ∧
    (analyzeAndAdapt scenarioNow
      { history := { events := c4Events, hourlyStats := [],
                     currentStrategy := Strategy.initial },
        currentMultiplier := 1 }).currentMultiplier = 3/2 ∧
    (3/2 : ℚ) ≠ 1 := by
  refine ⟨by decide, ?_, by norm_num⟩
  have h := analyze_rule scenarioNow
    { history := { events := c4Events, hourlyStats := [],
                   currentStrategy := Strategy.initial },
      currentMultiplier := 1 } (by decide) (by decide)
  rw [h]
  dsimp only
  rw [if_pos (show problemRateOf (recentEvents c4Events scenarioNow) > 3/10 by
    rw [c4_pr]; norm_num)]
  norm_num [min_def]

/-- C4 amended: `reanalyze()` computes its rates only from trailing-24h
events, but the insufficient-signal guard counts the entire event history:
the Strategy (multiplier included) is left unchanged when the full history
has fewer than 5 events, or when no trailing-24h event exists; otherwise
the resulting multiplier depends on the event log only through its total
length and its trailing-24h restriction. -/
theorem C4_amended_guards :
    (∀ (now : Int) (s : DelayState), s.history.events.length < 5 →
        analyzeAndAdapt now s = s) ∧
    (∀ (now : Int) (s : DelayState), recentEvents s.history.events now = [] →
        analyzeAndAdapt now s = s) ∧
    (∀ (now : Int) (s t : DelayState),
        s.history.events.length = t.history.events.length →
        recentEvents s.history.events now = recentEvents t.history.events now →
        s.currentMultiplier = t.currentMultiplier →
        (analyzeAndAdapt now s).currentMultiplier =
          (analyzeAndAdapt now t).currentMultiplier) := by
  refine ⟨?_, ?_, analyze_mult_congr⟩
  · intro now s h
    simp [analyzeAndAdapt, h]
  · intro now s h
    unfold analyzeAndAdapt
    split
    · rfl
    · dsimp only
      rw [if_pos (by simp [h])]

/-- Witness for the amended C4: a 1-event history is left entirely
unchanged by a re-analysis. -/
theorem C4_amended_guards_witness :
    analyzeAndAdapt 0
      { history := { events := [{ timestamp := 0, kind := .success }],
                     hourlyStats := [], currentStrategy := Strategy.initial },
        currentMultiplier := 1 } =
      { history := { events := [{ timestamp := 0, kind := .success }],
                     hourlyStats := [], currentStrategy := Strategy.initial },
        currentMultiplier := 1 } :=
  C4_amended_guards.1 0 _ (by decide)

/-! ### Helper lemmas: the dict model -/

/-- Assigning a key absent from the head skips the head. -/
theorem dictSet_cons_ne {α : Type} (p : String × α) (rest : List (String × α))
    (k : String) (v : α) (h : p.1 ≠ k) :
    dictSet (p :: rest) k v = p :: dictSet rest k v := by
  by_cases hr : rest.any (fun q => q.1 = k)
  · unfold dictSet
    simp [List.any_cons, h, hr]
  · unfold dictSet
    simp [List.any_cons, h, hr]

/-- In-place replacement of key `k` leaves the value at any other key. -/
theorem dictGet?_map_set_ne {α : Type} (m : List (String × α)) (k k' : String)
    (v : α) (h : k' ≠ k) :
    dictGet? (m.map (fun p => if p.1 = k then (k, v) else p)) k' = dictGet? m k' := by
  induction m with
  | nil => rfl
  | cons p rest ih =>
      by_cases hp : p.1 = k
      · rw [List.map_cons, if_pos hp, dictGet?, dictGet?,
          if_neg (Ne.symm h), if_neg (fun hc => h (by rw [← hc, hp]))]
        exact ih
      · rw [List.map_cons, if_neg hp, dictGet?, dictGet?]
        by_cases hpk : p.1 = k'
        · rw [if_pos hpk, if_pos hpk]
        · rw [if_neg hpk, if_neg hpk]
          exact ih

/-- After `d[k] = v`, looking up `k` yields `v`. -/
theorem dictGet?_dictSet_self {α : Type} (m : List (String × α)) (k : String)
    (v : α) : dictGet? (dictSet m k v) k = some v := by
  induction m with
  | nil => simp [dictSet, dictGet?]
  | cons p rest ih =>
      by_cases hp : p.1 = k
      · unfold dictSet
        rw [if_pos (by simp [List.any_cons, hp])]
        rw [List.map_cons, if_pos hp, dictGet?, if_pos rfl]
      · rw [dictSet_cons_ne p rest k v hp]
        rw [dictGet?, if_neg hp]
        exact ih

/-- After `d[k] = v`, every other key is unaffected. -/
theorem dictGet?_dictSet_ne {α : Type} (m : List (String × α)) (k k' : String)
    (v : α) (h : k' ≠ k) :
    dictGet? (dictSet m k v) k' = dictGet? m k' := by
  induction m with
  | nil => simp [dictSet, dictGet?, Ne.symm h]
  | cons p rest ih =>
      by_cases hp : p.1 = k
      · unfold dictSet
        rw [if_pos (by simp [List.any_cons, hp])]
        exact dictGet?_map_set_ne _ _ _ _ h
      · rw [dictSet_cons_ne p rest k v hp]
        by_cases hpk : p.1 = k'
        · simp [dictGet?, hpk]
        · simp [dictGet?, hpk, ih]

/-- A key is absent exactly when lookup yields nothing. -/
theorem dictGet?_eq_none_iff {α : Type} (m : List (String × α)) (k : String) :
    dictGet? m k = none ↔ k ∉ dictKeys m := by
  induction m with
  | nil => simp [dictGet?, dictKeys]
  | cons p rest ih =>
      by_cases hp : p.1 = k
      · simp [dictGet?, dictKeys, hp]
      · simp [dictGet?, dictKeys, hp, Ne.symm hp, ih]

/-- Lookup through the key filter used by the removal phase. -/
theorem dictGet?_filter_mem {α : Type} (m : List (String × α))
    (ids : List String) (k : String) :
    dictGet? (m.filter (fun p => p.1 ∈ ids)) k =
      if k ∈ ids then dictGet? m k else none := by
  induction m with
  | nil => simp [dictGet?]
  | cons p rest ih =>
      by_cases hpid : p.1 ∈ ids
      · by_cases hpk : p.1 = k
        · subst hpk
          simp [List.filter_cons, hpid, dictGet?]
        · simp [List.filter_cons, hpid, dictGet?, hpk, ih]
      · by_cases hpk : p.1 = k
        · subst hpk
          simp [List.filter_cons, hpid, dictGet?, ih]
        · simp [List.filter_cons, hpid, dictGet?, hpk, ih]

/-- Assignment preserves distinctness of keys. -/
theorem wfDict_dictSet {α : Type} (m : List (String × α)) (k : String) (v : α)
    (h : wfDict m) : wfDict (dictSet m k v) := by
  unfold dictSet
  split
  · have hkeys : (m.map (fun p => if p.1 = k then (k, v) else p)).map Prod.fst
        = m.map Prod.fst := by
      rw [List.map_map]
      apply List.map_congr_left
      intro p _
      by_cases hp : p.1 = k
      · simp [hp]
      · simp [hp]
    unfold wfDict
    rw [hkeys]
    exact h
  · rename_i hany
    have hka : ∀ p ∈ m, p.1 ≠ k := by
      intro q hq hqk
      exact hany (List.any_eq_true.mpr ⟨q, hq, by simp [hqk]⟩)
    unfold wfDict
    rw [List.map_append]
    rw [List.nodup_append]
    refine ⟨h, by simp, ?_⟩
    intro x hx
    simp only [List.mem_map] at hx
    obtain ⟨p, hp, rfl⟩ := hx
    simp [hka p hp]

/-- Filtering preserves distinctness of keys. -/
theorem wfDict_filter {α : Type} (m : List (String × α))
    (p : String × α → Bool) (h : wfDict m) : wfDict (m.filter p) :=
  ((m.filter_sublist).map Prod.fst).nodup h

/-- Writing back the value a key already holds is a no-op (given distinct
keys). -/
theorem dictSet_eq_self {α : Type} (m : List (String × α)) (k : String)
    (v : α) (hwf : wfDict m) (hget : dictGet? m k = some v) :
    dictSet m k v = m := by
  induction m with
  | nil => simp [dictGet?] at hget
  | cons p rest ih =>
      unfold wfDict at hwf
      rw [List.map_cons, List.nodup_cons] at hwf
      by_cases hp : p.1 = k
      · have hv : p.2 = v := by
          rw [dictGet?, if_pos hp] at hget
          exact Option.some_injective _ hget
        unfold dictSet
        rw [if_pos (by simp [List.any_cons, hp])]
        have hrest : rest.map (fun q => if q.1 = k then (k, v) else q) = rest := by
          conv_rhs => rw [← List.map_id rest]
          apply List.map_congr_left
          intro q hq
          have hqk : q.1 ≠ k := by
            intro hqk
            exact hwf.1 (hp ▸ hqk ▸ List.mem_map_of_mem Prod.fst hq)
          rw [if_neg hqk]
          rfl
        simp only [List.map_cons, if_pos hp, hrest]
        congr 1
        rw [← hp, ← hv]
      · rw [dictSet_cons_ne p rest k v hp]
        congr 1
        apply ih hwf.2
        rw [dictGet?, if_neg hp] at hget
        exact hget

/-! ### Helper lemmas: the diff fold -/

/-- Whatever branch the loop body takes, the apartments dict ends up with
the fresh record written at its id (src/app.py:756). -/
theorem processApt_apartments (now : Int) (acc : RunAcc) (apt : Apt) :
    (processApt now acc apt).apartments = dictSet acc.apartments apt.id apt := by
  unfold processApt
  cases h : dictGet? acc.apartments apt.id with
  | none => rfl
  | some old =>
      dsimp only
      split
      · rfl
      · rfl

/-- Unfolding of `lastWins` on a cons. -/
theorem lastWins_cons (a : Apt) (rest : List Apt) (k : String) :
    lastWins (a :: rest) k =
      if a.id = k then optOr (lastWins rest k) (some a) else lastWins rest k := by
  unfold lastWins
  by_cases h : a.id = k
  · rw [if_pos h, List.filter_cons, if_pos (by simp [h])]
    cases hf : rest.filter (fun b => b.id = k) with
    | nil => rfl
    | cons b l =>
        rw [List.getLast?_cons_cons]
        obtain ⟨c, hc⟩ := Option.isSome_iff_exists.mp
          (List.getLast?_isSome.mpr (List.cons_ne_nil b l))
        rw [hc]
        rfl
  · rw [if_neg h, List.filter_cons, if_neg (by simp [h])]

/-- Lookup after the diff loop: the last fresh apartment with that id wins;
keys not written keep their previous value. -/
theorem fold_get (now : Int) (fresh : List Apt) (acc : RunAcc) (k : String) :
    dictGet? ((fresh.foldl (processApt now) acc).apartments) k =
      optOr (lastWins fresh k) (dictGet? acc.apartments k) := by
  induction fresh generalizing acc with
  | nil => rfl
  | cons a rest ih =>
      rw [List.foldl_cons, ih, processApt_apartments, lastWins_cons]
      by_cases hak : a.id = k
      · rw [if_pos hak]
        cases hlw : lastWins rest k with
        | some b => rfl
        | none =>
            have : dictGet? (dictSet acc.apartments a.id a) k = some a := by
              rw [hak]
              exact dictGet?_dictSet_self _ _ _
            rw [this]
            rfl
      · rw [if_neg hak, dictGet?_dictSet_ne _ _ _ _ (Ne.symm hak)]

/-- No fresh apartment carries key `k`: the diff loop never writes it. -/
theorem lastWins_eq_none (fresh : List Apt) (k : String)
    (h : k ∉ fresh.map (fun a => a.id)) : lastWins fresh k = none := by
  unfold lastWins
  have hf : fresh.filter (fun a => a.id = k) = [] := by
    rw [List.filter_eq_nil_iff]
    intro a ha
    simp only [decide_eq_true_eq]
    intro hak
    exact h (hak ▸ List.mem_map_of_mem _ ha)
  rw [hf]
  rfl

/-- With pairwise-distinct fresh ids, each fresh apartment is its own last
occurrence. -/
theorem lastWins_self (fresh : List Apt) (a : Apt)
    (hnd : (fresh.map (fun x => x.id)).Nodup) (ha : a ∈ fresh) :
    lastWins fresh a.id = some a := by
  have hf : fresh.filter (fun b => b.id = a.id) = [a] := by
    induction fresh with
    | nil => cases ha
    | cons h t iht =>
        rw [List.map_cons, List.nodup_cons] at hnd
        rcases List.mem_cons.mp ha with rfl | hat
        · rw [List.filter_cons, if_pos (by simp)]
          have ht : t.filter (fun b => b.id = a.id) = [] := by
            rw [List.filter_eq_nil_iff]
            intro b hb
            simp only [decide_eq_true_eq]
            intro hbk
            exact hnd.1 (hbk ▸ List.mem_map_of_mem _ hb)
          rw [ht]
        · have hne : h.id ≠ a.id := by
            intro he
            exact hnd.1 (he ▸ List.mem_map_of_mem _ hat)
          rw [List.filter_cons, if_neg (by simp [hne])]
          exact iht hnd.2 hat
  unfold lastWins
  rw [hf]
  rfl

/-- The diff loop preserves distinctness of the apartment keys. -/
theorem fold_wf (now : Int) (fresh : List Apt) (acc : RunAcc)
    (h : wfDict acc.apartments) :
    wfDict ((fresh.foldl (processApt now) acc).apartments) := by
  induction fresh generalizing acc with
  | nil => exact h
  | cons a rest ih =>
      rw [List.foldl_cons]
      apply ih
      rw [processApt_apartments]
      exact wfDict_dictSet _ _ _ h

/-- When every fresh apartment is already stored verbatim, the diff loop is
a complete no-op: no classification, no history write, no dict change. -/
theorem fold_fixed (now : Int) (fresh : List Apt) (acc : RunAcc)
    (hwf : wfDict acc.apartments)
    (hall : ∀ a ∈ fresh, dictGet? acc.apartments a.id = some a) :
    fresh.foldl (processApt now) acc = acc := by
  induction fresh with
  | nil => rfl
  | cons a rest ih =>
      have hstep : processApt now acc a = acc := by
        unfold processApt
        rw [hall a (List.mem_cons_self a rest)]
        dsimp only
        rw [if_neg (by rintro ⟨-, -, hne⟩; exact hne rfl)]
        rw [dictSet_eq_self acc.apartments a.id a hwf (hall a (List.mem_cons_self a rest))]
      rw [List.foldl_cons, hstep]
      exact ih (fun b hb => hall b (List.mem_cons_of_mem _ hb))

/-- C10: the constructor initializes the multiplier to 1.0 and adjusts it by
exactly one re-analysis of the loaded event history; the multiplier stored
inside the persisted Strategy record is never read back, so for every
persisted multiplier value the post-construction multiplier equals one
re-analysis applied to 1.0. -/
theorem C10_constructor_ignores_persisted_multiplier :
    ∀ (loaded : History) (now : Int) (q q' : ℚ),
      (initDelayManager
        { loaded with currentStrategy :=
            { loaded.currentStrategy with
              pageDelayMultiplier := q, cycleDelayMultiplier := q' } } now).currentMultiplier =
        (analyzeAndAdapt now { history := loaded, currentMultiplier := 1 }).currentMultiplier := by
  intro loaded now q q'
  unfold initDelayManager
  exact analyze_mult_congr now _ _ rfl rfl rfl

/-! ### Claim theorems: diff engine -/

/-- Counterexample to C5 as stated: the code gates price comparison on
Python truthiness, so a stored price of 0 — non-null and different from the
fresh price 100 — produces no PriceChanged classification and no price
history update, although the claim requires both whenever the two prices
are non-null and differ. -/
theorem C5_zero_price_counterexample :
    c5Stored.price = some 0 ∧ c5Fresh.price = some 100 ∧
    c5Stored.price ≠ c5Fresh.price ∧
    dictGet? c5Acc.apartments c5Fresh.id = some c5Stored ∧
    (processApt 0 c5Acc c5Fresh).changes = [] ∧
    (processApt 0 c5Acc c5Fresh).priceHistory = c5Acc.priceHistory := by
  refine ⟨rfl, rfl, by decide, rfl, rfl, rfl⟩

/-- C5 amended: for each fresh entity processed in a run — untracked ids
are classified New with their price history seeded; tracked ids whose
stored and fresh prices are both non-null *and non-zero* (Python
truthiness) and differ are classified PriceChanged with exactly one history
entry appended; when either price is null or zero, or the prices agree, no
classification occurs and the price history is untouched; in every case
the stored record is replaced by the fresh one. -/
theorem C5_amended_per_entity_cases :
    (∀ (now : Int) (acc : RunAcc) (apt : Apt),
        dictGet? acc.apartments apt.id = none →
        (processApt now acc apt).newList = acc.newList ++ [apt] ∧
        (processApt now acc apt).changes = acc.changes ∧
        (processApt now acc apt).priceHistory =
          updatePriceHistory acc.priceHistory apt.id apt.price now) ∧
    (∀ (now : Int) (acc : RunAcc) (apt old : Apt),
        dictGet? acc.apartments apt.id = some old →
        pyTruthy old.price = true → pyTruthy apt.price = true →
        old.price ≠ apt.price →
        (∃ r, (processApt now acc apt).changes = acc.changes ++ [r] ∧
          r.apartment = apt ∧ r.oldPrice = old.price.getD 0 ∧
          r.newPrice = apt.price.getD 0) ∧
        (processApt now acc apt).newList = acc.newList ∧
        (processApt now acc apt).priceHistory =
          updatePriceHistory acc.priceHistory apt.id apt.price now) ∧
    (∀ (now : Int) (acc : RunAcc) (apt old : Apt),
        dictGet? acc.apartments apt.id = some old →
        (pyTruthy old.price = false ∨ pyTruthy apt.price = false ∨
          old.price = apt.price) →
        (processApt now acc apt).changes = acc.changes ∧
        (processApt now acc apt).newList = acc.newList ∧
        (processApt now acc apt).priceHistory = acc.priceHistory) ∧
    (∀ (now : Int) (acc : RunAcc) (apt : Apt),
        dictGet? (processApt now acc apt).apartments apt.id = some apt) := by
  refine ⟨?_, ?_, ?_, ?_⟩
  · intro now acc apt h
    unfold processApt
    rw [h]
    exact ⟨rfl, rfl, rfl⟩
  · intro now acc apt old h h1 h2 h3
    unfold processApt
    rw [h]
    dsimp only
    rw [if_pos ⟨h1, h2, h3⟩]
    exact ⟨⟨_, rfl, rfl, rfl, rfl⟩, rfl, rfl⟩
  · intro now acc apt old h hcase
    unfold processApt
    rw [h]
    dsimp only
    rw [if_neg ?hng]
    case hng =>
      rintro ⟨c1, c2, c3⟩
      rcases hcase with hc | hc | hc
      · rw [c1] at hc; cases hc
      · rw [c2] at hc; cases hc
      · exact c3 hc
    exact ⟨rfl, rfl, rfl⟩
  · intro now acc apt
    rw [processApt_apartments]
    exact dictGet?_dictSet_self _ _ _

/-- Witness for the amended C5: processing `c5Fresh` against an empty state
classifies it New, records no price change, and seeds its history. -/
theorem C5_amended_per_entity_cases_witness :
    (processApt 0 ⟨[], [], [], []⟩ c5Fresh).newList = [c5Fresh] ∧
    (processApt 0 ⟨[], [], [], []⟩ c5Fresh).changes = [] ∧
    (processApt 0 ⟨[], [], [], []⟩ c5Fresh).priceHistory =
      updatePriceHistory [] "a" (some 100) 0 := by
  have h := C5_amended_per_entity_cases.1 0 ⟨[], [], [], []⟩ c5Fresh rfl
  exact ⟨by simpa using h.1, h.2.1, h.2.2⟩

/-- Counterexample to C6 as stated: a fresh snapshot that lists the same id
twice with different prices.  The first run leaves the higher price stored;
re-running with the identical snapshot re-detects both transitions, so the
second run reports two PriceChanged classifications instead of zero. -/
theorem C6_duplicate_id_counterexample :
    (checkForChanges 1 c6Fresh
      (checkForChanges 0 c6Fresh
        { apartments := [], priceHistory := [] }).1).2.changes.length = 2 ∧
    (2 : Nat) ≠ 0 := by
  exact ⟨rfl, by decide⟩

/-- C6 amended: for every state whose tracked map has distinct keys and
every fresh snapshot whose ids are pairwise distinct (no duplicate ids),
running the diff engine twice in a row with the identical snapshot yields
zero New, zero PriceChanged and zero Removed classifications on the second
run. -/
theorem C6_amended_idempotent_on_nodup :
    ∀ (now1 now2 : Int) (fresh : List Apt) (s : MonState),
      wfDict s.apartments →
      (fresh.map (fun a => a.id)).Nodup →
      (checkForChanges now2 fresh (checkForChanges now1 fresh s).1).2.newApts = [] ∧
      (checkForChanges now2 fresh (checkForChanges now1 fresh s).1).2.changes = [] ∧
      (checkForChanges now2 fresh (checkForChanges now1 fresh s).1).2.removedIds = [] := by
  intro now1 now2 fresh s hwf hnd
  have hs1apts : (checkForChanges now1 fresh s).1.apartments =
      ((fresh.foldl (processApt now1)
        { apartments := s.apartments, priceHistory := s.priceHistory,
          newList := [], changes := [] }).apartments).filter
        (fun p => p.1 ∈ fresh.map (fun a => a.id)) := rfl
  have hwf1 : wfDict (checkForChanges now1 fresh s).1.apartments := by
    rw [hs1apts]
    exact wfDict_filter _ _ (fold_wf _ _ _ hwf)
  have hget1 : ∀ a ∈ fresh,
      dictGet? (checkForChanges now1 fresh s).1.apartments a.id = some a := by
    intro a ha
    rw [hs1apts, dictGet?_filter_mem,
      if_pos (List.mem_map_of_mem _ ha), fold_get,
      lastWins_self fresh a hnd ha]
    rfl
  have hfix : fresh.foldl (processApt now2)
      { apartments := (checkForChanges now1 fresh s).1.apartments,
        priceHistory := (checkForChanges now1 fresh s).1.priceHistory,
        newList := [], changes := [] } =
      { apartments := (checkForChanges now1 fresh s).1.apartments,
        priceHistory := (checkForChanges now1 fresh s).1.priceHistory,
        newList := [], changes := [] } :=
    fold_fixed now2 fresh _ hwf1 hget1
  refine ⟨?_, ?_, ?_⟩
  · show (fresh.foldl (processApt now2)
      { apartments := (checkForChanges now1 fresh s).1.apartments,
        priceHistory := (checkForChanges now1 fresh s).1.priceHistory,
        newList := [], changes := [] }).newList = []
    rw [hfix]
  · show (fresh.foldl (processApt now2)
      { apartments := (checkForChanges now1 fresh s).1.apartments,
        priceHistory := (checkForChanges now1 fresh s).1.priceHistory,
        newList := [], changes := [] }).changes = []
    rw [hfix]
  · show (dictKeys (fresh.foldl (processApt now2)
      { apartments := (checkForChanges now1 fresh s).1.apartments,
        priceHistory := (checkForChanges now1 fresh s).1.priceHistory,
        newList := [], changes := [] }).apartments).filter
        (fun k => ¬ k ∈ fresh.map (fun a => a.id)) = []
    rw [hfix]
    rw [List.filter_eq_nil_iff]
    intro k hk
    simp only [decide_not, Bool.not_eq_true', decide_eq_false_iff_not, not_not]
    rw [hs1apts] at hk
    unfold dictKeys at hk
    simp only [List.mem_map] at hk
    obtain ⟨p, hp, rfl⟩ := hk
    have := (List.mem_filter.mp hp).2
    simpa using this

/-- Witness for the amended C6: one well-formed apartment, diffed twice
from the empty state, produces no classification on the second run. -/
theorem C6_amended_idempotent_on_nodup_witness :
    (checkForChanges 1 [c6WitApt]
      (checkForChanges 0 [c6WitApt]
        { apartments := [], priceHistory := [] }).1).2.newApts = [] ∧
    (checkForChanges 1 [c6WitApt]
      (checkForChanges 0 [c6WitApt]
        { apartments := [], priceHistory := [] }).1).2.changes = [] ∧
    (checkForChanges 1 [c6WitApt]
      (checkForChanges 0 [c6WitApt]
        { apartments := [], priceHistory := [] }).1).2.removedIds = [] :=
  C6_amended_idempotent_on_nodup 0 1 [c6WitApt] _ (by simp [wfDict]) (by simp)

/-! ### Claim theorems: price history (C7) -/

/-- The truncation keeps at most `n` entries. -/
theorem lastN_length_le {α : Type} (n : Nat) (l : List α) :
    (lastN n l).length ≤ n := by
  simp only [lastN, List.length_drop]
  omega

/-- Truncating a concatenation ignores a prefix when the suffix is long
enough. -/
theorem lastN_append_of_le {α : Type} (n : Nat) (u v : List α)
    (h : n ≤ v.length) : lastN n (u ++ v) = lastN n v := by
  unfold lastN
  rw [List.length_append]
  have harith : u.length + v.length - n = u.length + (v.length - n) := by omega
  rw [harith, List.drop_append]

/-- Truncate-then-extend equals extend-then-truncate. -/
theorem lastN_lastN_append {α : Type} (n : Nat) (l m : List α) :
    lastN n (lastN n l ++ m) = lastN n (l ++ m) := by
  by_cases h : n ≤ l.length
  · have hlen : (l.drop (l.length - n)).length = n := by
      rw [List.length_drop]
      omega
    have h1 : lastN n l = l.drop (l.length - n) := rfl
    rw [h1]
    conv_rhs => rw [← List.take_append_drop (l.length - n) l, List.append_assoc]
    rw [lastN_append_of_le n (l.take (l.length - n)) (l.drop (l.length - n) ++ m)
      (by rw [List.length_append, hlen]; omega)]
  · have h0 : l.length - n = 0 := by omega
    have h1 : lastN n l = l := by
      unfold lastN
      rw [h0, List.drop_zero]
    rw [h1]

/-- One `update_price_history` call, seen through the entity's own list. -/
theorem updatePH_get (ph : List (String × List PHEntry)) (aptId : String)
    (p : Option Int) (t : Int) :
    dictGet? (updatePriceHistory ph aptId p t) aptId =
      some (lastN 50 ((dictGet? ph aptId).getD [] ++
        [{ price := p, timestamp := t }])) := by
  unfold updatePriceHistory
  exact dictGet?_dictSet_self _ _ _

/-- Iterated updates truncate the whole appended run to the last 50. -/
theorem applyPH_get (aptId : String) :
    ∀ (us : List (Option Int × Int)) (u : Option Int × Int)
      (ph : List (String × List PHEntry)),
      dictGet? (applyPHUpdates ph aptId (u :: us)) aptId =
        some (lastN 50 ((dictGet? ph aptId).getD [] ++
          (u :: us).map (fun w => { price := w.1, timestamp := w.2 : PHEntry }))) := by
  intro us
  induction us with
  | nil =>
      intro u ph
      exact updatePH_get ph aptId u.1 u.2
  | cons v vs ih =>
      intro u ph
      rw [show applyPHUpdates ph aptId (u :: v :: vs) =
        applyPHUpdates (updatePriceHistory ph aptId u.1 u.2) aptId (v :: vs) from rfl]
      rw [ih v (updatePriceHistory ph aptId u.1 u.2), updatePH_get]
      simp only [Option.getD_some]
      rw [lastN_lastN_append, List.append_assoc]
      rfl

/-- C7: after any positive number of `update_price_history` calls for an
entity, its price history holds at most 50 entries, and it is exactly the
most recent 50 of everything ever appended — truncation drops the oldest
entries (FIFO). -/
theorem C7_price_history_capped_fifo :
    ∀ (ph : List (String × List PHEntry)) (aptId : String)
      (u : Option Int × Int) (us : List (Option Int × Int)),
      (dictGet? (applyPHUpdates ph aptId (u :: us)) aptId).getD [] =
        lastN 50 (((dictGet? ph aptId).getD []) ++
          ((u :: us).map (fun w => { price := w.1, timestamp := w.2 : PHEntry }))) ∧
      ((dictGet? (applyPHUpdates ph aptId (u :: us)) aptId).getD []).length ≤ 50 := by
  intro ph aptId u us
  rw [applyPH_get aptId us u ph]
  exact ⟨rfl, lastN_length_le 50 _⟩

/-! ### Claim theorems: pagination and removal (C8, C2) -/

/-- Counterexample to C8 as stated: page 1 succeeds, the fetch of page 2
fails after retries, so the pagination pass aborts mid-run with a nonempty
partial snapshot.  The monitor still runs the diff on it, classifies the
tracked page-2 listing "B" as Removed and hard-deletes it — removal does
not require a completed, non-aborted pass. -/
theorem C8_partial_scrape_removal_counterexample :
    c8Pages 2 = .failed ∧
    dictGet? c8State.apartments "B" = some c8AptB ∧
    (scrapeAllPages c8Pages 50).1 = [c8AptA] ∧
    (monitorIteration c8Pages 50 9 c8State).2 =
      some { newApts := [], changes := [], removedIds := ["B"] } ∧
    dictGet? (monitorIteration c8Pages 50 9 c8State).1.apartments "B" = none := by
  refine ⟨rfl, rfl, rfl, rfl, rfl⟩

/-- C8 amended: an entity is classified Removed and hard-deleted exactly
when it was tracked and is absent from the latest snapshot — where the
snapshot is whatever the (possibly aborted) pagination pass returned, as
long as it is nonempty.  Only a pass returning an empty snapshot skips the
diff (and hence removal) entirely; a mid-run fetch failure with earlier
pages already collected does remove tracked entities from unfetched pages. -/
theorem C8_amended_removal_on_nonempty_snapshot :
    (∀ (pages : Nat → PageFetch) (maxPages : Nat) (now : Int) (s : MonState),
        (scrapeAllPages pages maxPages).1 = [] →
        monitorIteration pages maxPages now s = (s, none)) ∧
    (∀ (now : Int) (fresh : List Apt) (s : MonState) (k : String),
        (k ∈ (checkForChanges now fresh s).2.removedIds ↔
          (k ∈ dictKeys s.apartments ∧ k ∉ fresh.map (fun a => a.id))) ∧
        (k ∉ fresh.map (fun a => a.id) →
          dictGet? (checkForChanges now fresh s).1.apartments k = none)) := by
  have hmem : ∀ (m : List (String × Apt)) (k : String),
      k ∈ dictKeys m ↔ dictGet? m k ≠ none := by
    intro m k
    constructor
    · intro hk hn
      exact (dictGet?_eq_none_iff m k).mp hn hk
    · intro hne
      by_contra hk
      exact hne ((dictGet?_eq_none_iff m k).mpr hk)
  refine ⟨?_, ?_⟩
  · intro pages maxPages now s h
    unfold monitorIteration
    rw [h]
    rfl
  · intro now fresh s k
    constructor
    · have hrm : (checkForChanges now fresh s).2.removedIds =
          (dictKeys ((fresh.foldl (processApt now)
            { apartments := s.apartments, priceHistory := s.priceHistory,
              newList := [], changes := [] }).apartments)).filter
            (fun k' => ¬ k' ∈ fresh.map (fun a => a.id)) := rfl
      rw [hrm, List.mem_filter]
      constructor
      · rintro ⟨hk1, hk2⟩
        have hnotin : k ∉ fresh.map (fun a => a.id) := by simpa using hk2
        refine ⟨?_, hnotin⟩
        rw [hmem]
        rw [hmem] at hk1
        rw [fold_get, lastWins_eq_none fresh k hnotin] at hk1
        exact hk1
      · rintro ⟨hk1, hk2⟩
        refine ⟨?_, by simpa using hk2⟩
        rw [hmem, fold_get, lastWins_eq_none fresh k hk2]
        rw [hmem] at hk1
        exact hk1
    · intro hk
      have hfinal : (checkForChanges now fresh s).1.apartments =
          ((fresh.foldl (processApt now)
            { apartments := s.apartments, priceHistory := s.priceHistory,
              newList := [], changes := [] }).apartments).filter
            (fun p => p.1 ∈ fresh.map (fun a => a.id)) := rfl
      rw [hfinal, dictGet?_filter_mem, if_neg hk]

/-- Witness for the amended C8: when every fetch fails the snapshot is
empty and the iteration leaves the state untouched and reports nothing. -/
theorem C8_amended_removal_on_nonempty_snapshot_witness :
    monitorIteration emptyPages 50 0 { apartments := [], priceHistory := [] } =
      ({ apartments := [], priceHistory := [] }, none) :=
  C8_amended_removal_on_nonempty_snapshot.1 emptyPages 50 0 _ rfl

/-- Counterexample to C2 as stated: with a watermark of 100, page 1's
maximum source-side timestamp is 50 — older than the watermark — yet the
driver goes on to process page 2 as well (two pages processed, and the
page-2 item appears in the snapshot).  `scrape_all_pages` implements no
watermark-based early stop. -/
theorem C2_no_watermark_stop_counterexample :
    maxTs [some c2OldApt] = some 50 ∧ (50 : Int) < 100 ∧
    (scrapeAllPages c2Pages 50).1 = [c2OldApt, c2NextApt] ∧
    (scrapeAllPages c2Pages 50).2 = 2 := by
  refine ⟨rfl, by norm_num, rfl, rfl⟩

/-- The retiming gate commutes with the validity gate: item timestamps play
no role in validity. -/
theorem validOf_retime (f : String → Option Int) (o : Option Apt) :
    validOf (Option.map (setTs f) o) = (validOf o).map (setTs f) := by
  cases o with
  | none => rfl
  | some a =>
      simp only [Option.map_some', validOf]
      dsimp only [setTs]
      by_cases h : pyTruthy a.price = true ∧ a.link ≠ ""
      · rw [if_pos h, if_pos h]
        rfl
      · rw [if_neg h, if_neg h]
        rfl

/-- C2 amended: `scrape_all_pages` consults no watermark and no item
timestamp.  (i) The snapshot is exactly the concatenation of the valid
items of every page the driver processed — nothing on a fetched page is
ever omitted, whatever its timestamp; (ii) rewriting every item's
source-side timestamp arbitrarily changes neither the number of pages
processed nor the snapshot (beyond the inert timestamp field itself), so
no early stop is ever triggered by timestamps being older than a
watermark. -/
theorem C2_amended_no_watermark_pagination :
    (∀ (pages : Nat → PageFetch) (fuel page : Nat),
        (scrapeFrom pages page fuel).1 =
          joinPages pages page (scrapeFrom pages page fuel).2) ∧
    (∀ (pages : Nat → PageFetch) (f : String → Option Int) (fuel page : Nat),
        (scrapeFrom (retimePages f pages) page fuel).2 =
          (scrapeFrom pages page fuel).2 ∧
        (scrapeFrom (retimePages f pages) page fuel).1 =
          (scrapeFrom pages page fuel).1.map (setTs f)) := by
  constructor
  · intro pages fuel
    induction fuel with
    | zero => intro page; rfl
    | succ n ih =>
        intro page
        rw [scrapeFrom]
        cases hp : pages page with
        | failed => rfl
        | parsed items =>
            dsimp only
            by_cases hemp : items.isEmpty
            · rw [if_pos hemp]
              rfl
            · rw [if_neg hemp]
              by_cases hval : (items.filterMap validOf).isEmpty
              · rw [if_pos hval]
                show items.filterMap validOf =
                  pageValidItems (pages page) ++ joinPages pages (page + 1) 0
                rw [hp]
                show items.filterMap validOf = items.filterMap validOf ++ []
                rw [List.append_nil]
              · rw [if_neg hval]
                dsimp only
                show items.filterMap validOf ++ (scrapeFrom pages (page + 1) n).1 =
                  pageValidItems (pages page) ++
                    joinPages pages (page + 1) (scrapeFrom pages (page + 1) n).2
                rw [hp, ih (page + 1)]
                rfl
  · intro pages f fuel
    induction fuel with
    | zero => intro page; exact ⟨rfl, rfl⟩
    | succ n ih =>
        intro page
        rw [scrapeFrom, scrapeFrom]
        have hret : retimePages f pages page = retimePage f (pages page) := rfl
        rw [hret]
        cases hp : pages page with
        | failed => exact ⟨rfl, rfl⟩
        | parsed items =>
            unfold retimePage
            have hfm : (items.map (Option.map (setTs f))).filterMap validOf =
                (items.filterMap validOf).map (setTs f) := by
              rw [List.filterMap_map, List.map_filterMap]
              apply List.filterMap_congr
              intro o _
              exact validOf_retime f o
            have hie : ∀ {α β : Type} (g : α → β) (l : List α),
                (l.map g).isEmpty = l.isEmpty := by
              intro α β g l
              cases l <;> rfl
            simp only [hfm, hie]
            by_cases hemp : items.isEmpty
            · rw [if_pos hemp, if_pos hemp]
              exact ⟨rfl, rfl⟩
            · rw [if_neg hemp, if_neg hemp]
              by_cases hval : (items.filterMap validOf).isEmpty
              · rw [if_pos hval, if_pos hval]
                exact ⟨rfl, rfl⟩
              · rw [if_neg hval, if_neg hval]
                dsimp only
                obtain ⟨ihc, ihl⟩ := ih (page + 1)
                refine ⟨?_, ?_⟩
                · show (scrapeFrom (retimePages f pages) (page + 1) n).2 + 1 =
                    (scrapeFrom pages (page + 1) n).2 + 1
                  rw [ihc]
                · show (items.filterMap validOf).map (setTs f) ++
                      (scrapeFrom (retimePages f pages) (page + 1) n).1 =
                    (items.filterMap validOf ++ (scrapeFrom pages (page + 1) n).1).map (setTs f)
                  rw [ihl, List.map_append]

/-! ### Claim theorems: notification dispatcher (C9) -/

/-- Counterexample to C9 as stated: every exception escaping the pool block
demotes the dispatcher, not only the resource-exhaustion `RuntimeError`
"can't start new thread" — a generic exception and an unrelated
`RuntimeError` both flip `use_parallel_messages` to `False`
(src/app.py:860-865 sets the flag in all three handlers). -/
theorem C9_demotes_on_any_exception_counterexample :
    PoolOutcome.otherExc ≠ PoolOutcome.runtimeNoThread ∧
    PoolOutcome.runtimeOther ≠ PoolOutcome.runtimeNoThread ∧
    (sendBatchStep true 1 .otherExc).1 = false ∧
    (sendBatchStep true 1 .runtimeOther).1 = false := by
  refine ⟨by decide, by decide, rfl, rfl⟩

/-- C9 amended: the demotion to sequential delivery is sticky — once the
flag is `False` it stays `False` for every subsequent batch, each of which
is delivered sequentially — and it is triggered by *any* exception escaping
the parallel dispatch attempt (the recognized "can't start new thread"
`RuntimeError`, any other `RuntimeError`, or any other exception), while a
clean parallel run keeps parallel mode; an empty batch changes nothing. -/
theorem C9_amended_sticky_demotion :
    (∀ (batches : List (Nat × PoolOutcome)), runBatches false batches = false) ∧
    (∀ (n : Nat) (o : PoolOutcome), n ≠ 0 →
        (sendBatchStep false n o).2 = some SendMode.sequential) ∧
    (∀ (n : Nat) (o : PoolOutcome), n ≠ 0 → o ≠ .ok →
        sendBatchStep true n o = (false, some SendMode.sequential)) ∧
    (∀ (n : Nat), n ≠ 0 →
        sendBatchStep true n .ok = (true, some SendMode.parallel)) ∧
    (∀ (b : Bool) (o : PoolOutcome), (sendBatchStep b 0 o).1 = b) := by
  have hstep : ∀ (n : Nat) (o : PoolOutcome), (sendBatchStep false n o).1 = false := by
    intro n o
    unfold sendBatchStep
    by_cases hn : n = 0
    · rw [if_pos hn]
    · rw [if_neg hn]
      rfl
  refine ⟨?_, ?_, ?_, ?_, ?_⟩
  · intro batches
    induction batches with
    | nil => rfl
    | cons b rest ih =>
        obtain ⟨n, o⟩ := b
        show runBatches (sendBatchStep false n o).1 rest = false
        rw [hstep]
        exact ih
  · intro n o hn
    unfold sendBatchStep
    rw [if_neg hn]
    rfl
  · intro n o hn ho
    unfold sendBatchStep
    rw [if_neg hn]
    cases o with
    | ok => exact absurd rfl ho
    | runtimeNoThread => rfl
    | runtimeOther => rfl
    | otherExc => rfl
  · intro n hn
    unfold sendBatchStep
    rw [if_neg hn]
    rfl
  · intro b o
    unfold sendBatchStep
    rfl

/-- Witness for the amended C9: the recognized resource-exhaustion error on
a nonempty batch demotes and falls back to sequential delivery. -/
theorem C9_amended_sticky_demotion_witness :
    sendBatchStep true 1 .runtimeNoThread = (false, some SendMode.sequential) :=
  C9_amended_sticky_demotion.2.2.1 1 .runtimeNoThread (by decide) (by decide)

end Yad2
